import Mathlib

/-!
Shallow embedding of the channel-proposal state machine of
`src/channeld/automata/propose.rs` (lnp-node).

The FSM owns a stage (`ChannelPropose`), receives bus events, mutates the
runtime state (channel object, ESB identity) and emits control-bus and
peer-wire messages.  External collaborators (the channel
object of the `lnp` crate, DER signature parsing, the ESB send primitives) are imported
primitives in the source; here they are fields of an `Env` record so that
theorems quantify over every possible collaborator behaviour and witnesses
can instantiate them concretely.

Runtime mutations and outbound emissions are recorded in an ordered effect
trace, so emission ordering and non-mutation claims are directly statable.
Rust `panic!`/`expect`/`todo!` is modelled by a distinct `Step.panic`
outcome, separate from `Result::Err`.
-/

set_option maxHeartbeats 1000000

/-- Stage enumeration of the proposal workflow (`enum ChannelPropose`). -/
inductive ChannelPropose where
  | Proposed
  | Accepted
  | Signing
  | Funding
  | Signed
  | Funded
  | Locked
deriving DecidableEq, Repr

/-- The subset of `lnp::bolt::Lifecycle` values produced by
`ChannelPropose::lifecycle` and carried inside `UnexpectedMessage` errors. -/
inductive Lifecycle where
  | Proposed
  | Accepted
  | Signing
  | Funding
  | Signed
  | Funded
  | Locked
deriving DecidableEq, Repr

/-- Models `ChannelPropose::lifecycle` from the source. -/
def ChannelPropose.lifecycle : ChannelPropose → Lifecycle
  | .Proposed => .Proposed
  | .Accepted => .Accepted
  | .Signing => .Signing
  | .Funding => .Funding
  | .Signed => .Signed
  | .Funded => .Funded
  | .Locked => .Locked

/-- Bus addresses used by the FSM (`ServiceId`).  `channel cid` is the
service id `ServiceId::Channel(channel_id)`. -/
inductive ServiceId where
  | lnpBroker
  | signer
  | chain
  | peer (n : Nat)
  | channel (cid : Nat)
  | client (n : Nat)
deriving DecidableEq, Repr

/-- One PSBT input; `sigs` models the `partial_sigs` map from public key to
signature bytes (DER signature followed by one sighash byte). -/
structure PsbtInput where
  sigs : List (Nat × List Nat)
deriving DecidableEq, Repr

/-- A partially signed bitcoin transaction; `txid` is the id of
`global.unsigned_tx`. -/
structure Psbt where
  inputs : List PsbtInput
  txid : Nat
deriving DecidableEq, Repr

/-- Payload of the `funding_created` peer message. -/
structure FundingCreated where
  temporary_channel_id : Nat
  funding_txid : Nat
  funding_output_index : Nat
  signature : Nat
deriving DecidableEq, Repr

/-- Peer-wire messages (`lnp::p2p::legacy::Messages`); payloads the FSM
never inspects are opaque numbers. -/
inductive LnMsg where
  | openChannel (oc : Nat)
  | acceptChannel (ac : Nat)
  | fundingCreated (fc : FundingCreated)
  | fundingSigned (fs : Nat)
  | channelReady (cr : Nat)
  | otherLn (n : Nat)
deriving DecidableEq, Repr

/-- Payload of `CtlMsg::ConstructFunding` (`FundChannel`). -/
structure FundChannel where
  script_pubkey : List Nat
  feerate_per_kw : Option Nat
  amount : Nat
deriving DecidableEq, Repr

/-- Control-bus messages used by the FSM (`CtlMsg`). -/
inductive CtlMsg where
  | constructFunding (fc : FundChannel)
  | fundingConstructed (psbt : Psbt)
  | sign (psbt : Psbt)
  | signed (psbt : Psbt)
  | hello
  | publishFunding
  | fundingPublished
  | track (txid : Nat)
  | fundingMined (depth : Nat)
  | activate
  | otherCtl (n : Nat)
deriving DecidableEq, Repr

/-- A bus message `BusMsg`: either a peer-wire or a control-bus message. -/
inductive BusMsg where
  | ln (m : LnMsg)
  | ctl (m : CtlMsg)
deriving DecidableEq, Repr

/-- An inbound event: the message plus its source service id (the
`endpoints` handle of the source is implicit in the state). -/
structure Event where
  source : ServiceId
  message : BusMsg
deriving DecidableEq, Repr

/-- The `automata::Error` variants reachable from this file.  Errors of the
external channel object and of the bus sends arrive through `From`
conversions; their payloads are opaque numbers. -/
inductive Error where
  | unexpectedMessage (msg : BusMsg) (stage : Lifecycle) (source : ServiceId)
  | channelError (e : Nat)
  | fundingPsbtUnsigned (pk : Nat)
  | invalidSig (e : Nat)
  | busSend (e : Nat)
deriving DecidableEq, Repr

/-- Observable state of the `lnp` channel object, restricted to the fields
the FSM reads.  `data` stands for the remaining internal state, so that
`update_from_peer` of the environment can be observed to mutate the channel. -/
structure Channel where
  tempId : Option Nat
  fundingTxid : Nat
  fundingOutput : Nat
  fundingAmount : Nat
  fundingPubkey : Nat
  scriptPubkey : List Nat
  network : Option Nat
  data : Nat
deriving DecidableEq, Repr

/-- Models `ChannelId::with(funding_txid, funding_output_index)` — the imported
BOLT-2 derivation of the permanent channel id from the funding outpoint,
modelled by an injective pairing of the two arguments. -/
def chanIdWith (txid out : Nat) : Nat := txid * 65536 + out

/-- One outbound side effect of a transition, in emission order. -/
inductive Effect where
  | chanMut
  | idSwap (newId : ServiceId)
  | ctl (dest : ServiceId) (m : CtlMsg)
  | p2p (m : LnMsg)
deriving DecidableEq, Repr

/-- The mutable runtime state seen by the FSM: the channel object, the
current ESB identity of the daemon, and the ordered trace of effects
performed so far. -/
structure St where
  channel : Channel
  identity : ServiceId
  trace : List Effect
deriving DecidableEq, Repr

/-- Outcome of one transition: Rust `Ok`, `Err`, or a panic
(`expect` / `todo!`).  The state is carried along because mutations made
before a failure persist in the `&mut Runtime`. -/
inductive Step (α : Type) where
  | ok (a : α) (st : St)
  | err (e : Error) (st : St)
  | panic (st : St)
deriving DecidableEq, Repr

/-- Functorial action on the successful value. -/
def Step.map {α β : Type} (f : α → β) : Step α → Step β
  | .ok a st => .ok (f a) st
  | .err e st => .err e st
  | .panic st => .panic st

/-- Behaviour of the external collaborators.  `compose_open_channel`,
`update_from_peer` and `refund_tx` are methods of the imported channel
object (they may mutate it, hence the returned `Channel`); `fromDer` is
`Signature::from_der`; the `ok` predicates decide whether the ESB send and
re-registration primitives succeed. -/
structure Env where
  compose_open_channel :
    Channel → Nat → Nat → Nat → Nat → Nat → Nat → Except Nat (Channel × Nat)
  update_from_peer : Channel → LnMsg → Except Nat Channel
  refund_tx : Channel → Psbt → Bool → Except Nat (Channel × Psbt)
  fromDer : List Nat → Except Nat Nat
  send_p2p_ok : LnMsg → Bool
  send_ctl_ok : ServiceId → CtlMsg → Bool
  set_identity_ok : ServiceId → Bool

/-- Models `Runtime::send_ctl`: on success the message is appended to the effect
trace; on failure the esb error surfaces as `Error::busSend`. -/
def sendCtl (env : Env) (dest : ServiceId) (m : CtlMsg) (st : St) : Except Error St :=
  if env.send_ctl_ok dest m then
    .ok { st with trace := st.trace ++ [.ctl dest m] }
  else
    .error (.busSend 0)

/-- Models `Runtime::send_p2p`. -/
def sendP2p (env : Env) (m : LnMsg) (st : St) : Except Error St :=
  if env.send_p2p_ok m then
    .ok { st with trace := st.trace ++ [.p2p m] }
  else
    .error (.busSend 0)

/-- Models `fn complete_proposed` (stage `Proposed`, expects peer
`accept_channel`). -/
def complete_proposed (env : Env) (e : Event) (st : St) : Step ChannelPropose :=
  match e.message with
  | .ln (.acceptChannel ac) =>
    match env.update_from_peer st.channel (.acceptChannel ac) with
    | .error ce => .err (.channelError ce) st
    | .ok ch' =>
      let st1 : St := { st with channel := ch', trace := st.trace ++ [.chanMut] }
      let fc : FundChannel :=
        { script_pubkey := ch'.scriptPubkey
          feerate_per_kw := none
          amount := ch'.fundingAmount }
      match sendCtl env .lnpBroker (.constructFunding fc) st1 with
      | .error er => .err er st1
      | .ok st2 => .ok .Accepted st2
  | wrong => .err (.unexpectedMessage wrong .Proposed e.source) st

/-- Models `fn complete_accepted` (stage `Accepted`, expects control
`funding_constructed`). -/
def complete_accepted (env : Env) (e : Event) (st : St) : Step ChannelPropose :=
  match e.message with
  | .ctl (.fundingConstructed funding_psbt) =>
    match env.refund_tx st.channel funding_psbt true with
    | .error ce => .err (.channelError ce) st
    | .ok (ch', refund_psbt) =>
      let st1 : St := { st with channel := ch', trace := st.trace ++ [.chanMut] }
      match sendCtl env .signer (.sign refund_psbt) st1 with
      | .error er => .err er st1
      | .ok st2 => .ok .Signing st2
  | wrong => .err (.unexpectedMessage wrong .Accepted e.source) st

/-- Models `fn complete_signing` (stage `Signing`, expects control `signed`).
The `expect` calls of the source (first PSBT input, temporary channel id,
`set_identity`) and the `signature.len() - 1` slice on an empty signature
entry are panics. -/
def complete_signing (env : Env) (e : Event) (st : St) : Step ChannelPropose :=
  match e.message with
  | .ctl (.signed refund_psbt) =>
    let ch := st.channel
    let funding_pubkey := ch.fundingPubkey
    match refund_psbt.inputs.get? 0 with
    | none => .panic st
    | some funding_input =>
      match funding_input.sigs.lookup funding_pubkey with
      | none => .err (.fundingPsbtUnsigned funding_pubkey) st
      | some sigBytes =>
        if sigBytes = [] then .panic st
        else
          match env.fromDer (sigBytes.take (sigBytes.length - 1)) with
          | .error pe => .err (.invalidSig pe) st
          | .ok signature =>
            let funding_txid := ch.fundingTxid
            let funding_output_index := ch.fundingOutput
            match ch.tempId with
            | none => .panic st
            | some tid =>
              let funding_created : FundingCreated :=
                { temporary_channel_id := tid
                  funding_txid := funding_txid
                  funding_output_index := funding_output_index
                  signature := signature }
              let newId : ServiceId :=
                .channel (chanIdWith funding_txid funding_output_index)
              if env.set_identity_ok newId then
                let st1 : St :=
                  { st with identity := newId, trace := st.trace ++ [.idSwap newId] }
                match sendCtl env .lnpBroker .hello st1 with
                | .error er => .err er st1
                | .ok st2 =>
                  match sendP2p env (.fundingCreated funding_created) st2 with
                  | .error er => .err er st2
                  | .ok st3 => .ok .Funding st3
              else .panic st
  | wrong => .err (.unexpectedMessage wrong .Signing e.source) st

/-- Models `fn complete_funding` (stage `Funding`, expects peer `funding_signed`). -/
def complete_funding (env : Env) (e : Event) (st : St) : Step ChannelPropose :=
  match e.message with
  | .ln (.fundingSigned fs) =>
    match env.update_from_peer st.channel (.fundingSigned fs) with
    | .error ce => .err (.channelError ce) st
    | .ok ch' =>
      let st1 : St := { st with channel := ch', trace := st.trace ++ [.chanMut] }
      match sendCtl env .lnpBroker .publishFunding st1 with
      | .error er => .err er st1
      | .ok st2 => .ok .Signed st2
  | wrong => .err (.unexpectedMessage wrong .Funding e.source) st

/-- Models `fn complete_signed` (stage `Signed`, expects control
`funding_published`). -/
def complete_signed (env : Env) (e : Event) (st : St) : Step ChannelPropose :=
  match e.message with
  | .ctl .fundingPublished =>
    let txid := st.channel.fundingTxid
    match sendCtl env .chain (.track txid) st with
    | .error er => .err er st
    | .ok st1 => .ok .Funded st1
  | wrong => .err (.unexpectedMessage wrong .Signed e.source) st

/-- Models `fn complete_funded` — `todo!()` in the source: every event panics. -/
def complete_funded (_env : Env) (_e : Event) (st : St) : Step ChannelPropose :=
  .panic st

/-- Models `fn complete_locked` — `todo!()` in the source: every event panics. -/
def complete_locked (_env : Env) (_e : Event) (st : St) : Step Unit :=
  .panic st

/-- Models `StateMachine::next` for `ChannelPropose`: dispatches on the current
stage; the `Locked` branch alone yields `Ok(None)` (termination). -/
def next (env : Env) (s : ChannelPropose) (e : Event) (st : St) :
    Step (Option ChannelPropose) :=
  match s with
  | .Proposed => (complete_proposed env e st).map some
  | .Accepted => (complete_accepted env e st).map some
  | .Signing => (complete_signing env e st).map some
  | .Funding => (complete_funding env e st).map some
  | .Signed => (complete_signed env e st).map some
  | .Funded => (complete_funded env e st).map some
  | .Locked =>
    match complete_locked env e st with
    | .ok _ st' => .ok none st'
    | .err er st' => .err er st'
    | .panic st' => .panic st'

/-- The `OpenChannelWith` request block consumed by `ChannelPropose::with`. -/
structure OpenChannelWith where
  funding_sat : Nat
  push_msat : Nat
  policy : Nat
  common_params : Nat
  local_params : Nat
  local_keys : Nat
deriving DecidableEq, Repr

/-- Models `ChannelPropose::with` (named `initiate` in the specification; `with`
is reserved in Lean): composes `open_channel` from the request block and
sends it to the peer, returning stage `Proposed`. -/
def ChannelPropose.initiate (env : Env) (req : OpenChannelWith) (st : St) :
    Step ChannelPropose :=
  match env.compose_open_channel st.channel req.funding_sat req.push_msat
      req.policy req.common_params req.local_params req.local_keys with
  | .error ce => .err (.channelError ce) st
  | .ok (ch', oc) =>
    let st1 : St := { st with channel := ch', trace := st.trace ++ [.chanMut] }
    match sendP2p env (.openChannel oc) st1 with
    | .error er => .err er st1
    | .ok st2 => .ok .Proposed st2

/-- Modelled from the spec: `fn complete_funded` is `todo!()` in the
source; section 4.1 of the specification prescribes that stage `Funded`
expects the control message `funding_mined` and emits the peer message
`channel_ready`, moving to `Locked`. -/
def complete_funded_specModel (env : Env) (e : Event) (st : St) :
    Step ChannelPropose :=
  match e.message with
  | .ctl (.fundingMined _) =>
    match sendP2p env
        (.channelReady (chanIdWith st.channel.fundingTxid st.channel.fundingOutput)) st with
    | .error er => .err er st
    | .ok st1 => .ok .Locked st1
  | wrong => .err (.unexpectedMessage wrong .Funded e.source) st

/-- Modelled from the spec: `fn complete_locked` is `todo!()` in the
source; section 4.1 of the specification prescribes that stage `Locked`
expects the reciprocal peer `channel_ready`, emits control `activate`, and
terminates the automaton. -/
def complete_locked_specModel (env : Env) (e : Event) (st : St) : Step Unit :=
  match e.message with
  | .ln (.channelReady _) =>
    match sendCtl env .lnpBroker .activate st with
    | .error er => .err er st
    | .ok st1 => .ok () st1
  | wrong => .err (.unexpectedMessage wrong .Locked e.source) st

/-- Variant of `next` with the two open edges (`Funded`, `Locked`) closed by their
spec-modelled transitions; the five implemented stages are shared with
`next` verbatim. -/
def nextSpec (env : Env) (s : ChannelPropose) (e : Event) (st : St) :
    Step (Option ChannelPropose) :=
  match s with
  | .Proposed => (complete_proposed env e st).map some
  | .Accepted => (complete_accepted env e st).map some
  | .Signing => (complete_signing env e st).map some
  | .Funding => (complete_funding env e st).map some
  | .Signed => (complete_signed env e st).map some
  | .Funded => (complete_funded_specModel env e st).map some
  | .Locked =>
    match complete_locked_specModel env e st with
    | .ok _ st' => .ok none st'
    | .err er st' => .err er st'
    | .panic st' => .panic st'

/-- State of a whole run: a live FSM at some stage, a completed FSM
(`next` returned `Ok(None)`), or a torn-down FSM (error or panic). -/
inductive RunState where
  | going (s : ChannelPropose) (st : St)
  | finished (st : St)
  | failed (er : Error) (st : St)
  | crashed (st : St)
deriving DecidableEq, Repr

/-- Deliver one event to a run (events after teardown are dropped, since
the dispatcher destroys the FSM on completion or failure). -/
def stepRun (nx : Env → ChannelPropose → Event → St → Step (Option ChannelPropose))
    (env : Env) : RunState → Event → RunState
  | .going s st, e =>
    match nx env s e st with
    | .ok (some s') st' => .going s' st'
    | .ok none st' => .finished st'
    | .err er st' => .failed er st'
    | .panic st' => .crashed st'
  | r, _ => r

/-- Deliver a sequence of events to a run. -/
def run (nx : Env → ChannelPropose → Event → St → Step (Option ChannelPropose))
    (env : Env) (r : RunState) (es : List Event) : RunState :=
  es.foldl (stepRun nx env) r

/-- Kind (discriminant) of a peer-wire message. -/
inductive MsgKind where
  | kOpenChannel
  | kAcceptChannel
  | kFundingCreated
  | kFundingSigned
  | kChannelReady
  | kOtherLn
deriving DecidableEq, Repr

/-- Kind of a peer-wire message. -/
def LnMsg.kind : LnMsg → MsgKind
  | .openChannel _ => .kOpenChannel
  | .acceptChannel _ => .kAcceptChannel
  | .fundingCreated _ => .kFundingCreated
  | .fundingSigned _ => .kFundingSigned
  | .channelReady _ => .kChannelReady
  | .otherLn _ => .kOtherLn

/-- The peer-wire messages of an effect trace, in emission order. -/
def p2pMsgs (tr : List Effect) : List LnMsg :=
  tr.filterMap fun ef =>
    match ef with
    | .p2p m => some m
    | _ => none

/-- The peer-wire message kinds of an effect trace, in emission order. -/
def p2pKinds (tr : List Effect) : List MsgKind := (p2pMsgs tr).map LnMsg.kind

/-- The identity-swap payloads recorded in a trace, in emission order. -/
def swaps (tr : List Effect) : List ServiceId :=
  tr.filterMap fun ef =>
    match ef with
    | .idSwap i => some i
    | _ => none

/-- The payloads of the `funding_created` messages emitted over the peer
wire in a trace, in emission order. -/
def fundingCreatedMsgs (tr : List Effect) : List FundingCreated :=
  tr.filterMap fun ef =>
    match ef with
    | .p2p (.fundingCreated f) => some f
    | _ => none

/-- Emission phase of an effect: channel mutations precede the identity
swap, which precedes control-bus sends, which precede peer-wire sends. -/
def Effect.phase : Effect → Nat
  | .chanMut => 0
  | .idSwap _ => 1
  | .ctl _ _ => 2
  | .p2p _ => 3

/-- A trace fragment is phase-ordered when the phases of consecutive
effects never decrease. -/
def Phased (l : List Effect) : Prop := (l.map Effect.phase).Chain' (· ≤ ·)

/-- The single event class each implemented stage accepts
(the match patterns of the five `complete_*` functions). -/
def expectedMsg : ChannelPropose → BusMsg → Bool
  | .Proposed, .ln (.acceptChannel _) => true
  | .Accepted, .ctl (.fundingConstructed _) => true
  | .Signing, .ctl (.signed _) => true
  | .Funding, .ln (.fundingSigned _) => true
  | .Signed, .ctl .fundingPublished => true
  | _, _ => false

/-- Discriminates the `UnexpectedMessage` error kind. -/
def Error.isUnexpected : Error → Bool
  | .unexpectedMessage _ _ _ => true
  | _ => false

/-- Whether a step outcome is an `Err`. -/
def Step.isErr {α : Type} : Step α → Bool
  | .err _ _ => true
  | _ => false

/-- Whether a step outcome is a panic. -/
def Step.isPanic {α : Type} : Step α → Bool
  | .panic _ => true
  | _ => false

/-- Stages strictly before the Signing to Funding transition. -/
def preStage : ChannelPropose → Bool
  | .Proposed => true
  | .Accepted => true
  | .Signing => true
  | _ => false

/-- Channel-identity invariant of a live run started with state `st0`:
before the Signing to Funding transition the ESB identity is the initial
(temporary) one, no identity swap has been recorded, and no
`funding_created` has been emitted; afterwards exactly one swap has been
recorded and exactly one `funding_created` emitted, and the current
identity is the id installed by that swap — the BOLT-2 permanent id
derived from the funding outpoint carried inside that `funding_created`
message. -/
def IdInv (st0 : St) : RunState → Prop
  | .going s st =>
      (preStage s = true →
        st.identity = st0.identity ∧ swaps st.trace = swaps st0.trace ∧
        fundingCreatedMsgs st.trace = fundingCreatedMsgs st0.trace) ∧
      (preStage s = false →
        ∃ fcm,
          st.identity =
            .channel (chanIdWith fcm.funding_txid fcm.funding_output_index) ∧
          swaps st.trace = swaps st0.trace ++
            [.channel (chanIdWith fcm.funding_txid fcm.funding_output_index)] ∧
          fundingCreatedMsgs st.trace = fundingCreatedMsgs st0.trace ++ [fcm])
  | _ => True

/-- Peer-wire message kinds emitted up to (and including) reaching a given
stage, counted from `initiate`. -/
def p2pSoFar : ChannelPropose → List MsgKind
  | .Proposed => [.kOpenChannel]
  | .Accepted => [.kOpenChannel]
  | .Signing => [.kOpenChannel]
  | .Funding => [.kOpenChannel, .kFundingCreated]
  | .Signed => [.kOpenChannel, .kFundingCreated]
  | .Funded => [.kOpenChannel, .kFundingCreated]
  | .Locked => [.kOpenChannel, .kFundingCreated, .kChannelReady]

/-- Trace invariant of a run under `nextSpec`: the peer-wire kinds in the
trace are exactly the prefix determined by the stage, and on termination
the full handshake sequence. -/
def TraceInv : RunState → Prop
  | .going s st => p2pKinds st.trace = p2pSoFar s
  | .finished st =>
      p2pKinds st.trace = [.kOpenChannel, .kFundingCreated, .kChannelReady]
  | _ => True

def okEnv : Env :=
  { compose_open_channel := fun ch _ _ _ _ _ _ => .ok ({ ch with tempId := some 7 }, 5)
    update_from_peer := fun ch _ => .ok { ch with data := ch.data + 1 }
    refund_tx := fun ch psbt _ => .ok (ch, psbt)
    fromDer := fun l => .ok (l.foldl (fun a b => a * 256 + b) 0)
    send_p2p_ok := fun _ => true
    send_ctl_ok := fun _ _ => true
    set_identity_ok := fun _ => true }

def ch0 : Channel :=
  { tempId := some 7
    fundingTxid := 3
    fundingOutput := 1
    fundingAmount := 100000
    fundingPubkey := 11
    scriptPubkey := [1, 2]
    network := some 0
    data := 0 }

def st0 : St := { channel := ch0, identity := .channel 7, trace := [] }

def req0 : OpenChannelWith :=
  { funding_sat := 100000, push_msat := 0, policy := 0
    common_params := 0, local_params := 0, local_keys := 0 }

def psbt0 : Psbt := { inputs := [{ sigs := [] }], txid := 3 }

def psbtSigned : Psbt := { inputs := [{ sigs := [(11, [1, 2, 3])] }], txid := 3 }

def demoEvents : List Event :=
  [ { source := .peer 0, message := .ln (.acceptChannel 4) }
  , { source := .lnpBroker, message := .ctl (.fundingConstructed psbt0) }
  , { source := .signer, message := .ctl (.signed psbtSigned) }
  , { source := .peer 0, message := .ln (.fundingSigned 9) }
  , { source := .lnpBroker, message := .ctl .fundingPublished }
  , { source := .chain, message := .ctl (.fundingMined 6) }
  , { source := .peer 0, message := .ln (.channelReady 1) } ]

def st1c : St :=
  { channel := ch0, identity := .channel 7
    trace := [.chanMut, .p2p (.openChannel 5)] }

def fcDemo : FundingCreated :=
  { temporary_channel_id := 7, funding_txid := 3
    funding_output_index := 1, signature := 258 }

def demoFinal : St :=
  { channel := { ch0 with data := 2 }
    identity := .channel 196609
    trace := [.chanMut, .p2p (.openChannel 5),
              .chanMut, .ctl .lnpBroker (.constructFunding
                { script_pubkey := [1, 2], feerate_per_kw := none, amount := 100000 }),
              .chanMut, .ctl .signer (.sign psbt0),
              .idSwap (.channel 196609), .ctl .lnpBroker .hello,
              .p2p (.fundingCreated fcDemo),
              .chanMut, .ctl .lnpBroker .publishFunding,
              .ctl .chain (.track 3),
              .p2p (.channelReady 196609),
              .ctl .lnpBroker .activate] }

def demo3 : St :=
  { channel := { ch0 with data := 1 }
    identity := .channel 196609
    trace := [.chanMut, .ctl .lnpBroker (.constructFunding
                { script_pubkey := [1, 2], feerate_per_kw := none, amount := 100000 }),
              .chanMut, .ctl .signer (.sign psbt0),
              .idSwap (.channel 196609), .ctl .lnpBroker .hello,
              .p2p (.fundingCreated fcDemo)] }

def demo1 : St :=
  { channel := { ch0 with data := 1 }
    identity := .channel 7
    trace := [.chanMut, .ctl .lnpBroker (.constructFunding
                { script_pubkey := [1, 2], feerate_per_kw := none, amount := 100000 })] }

def demoSigningSt : St :=
  { channel := ch0
    identity := .channel 196609
    trace := [.idSwap (.channel 196609), .ctl .lnpBroker .hello,
              .p2p (.fundingCreated fcDemo)] }

def ctlFailEnv : Env := { okEnv with send_ctl_ok := fun _ _ => false }

def swapFailEnv : Env := { okEnv with set_identity_ok := fun _ => false }

def evAccept : Event := { source := .peer 0, message := .ln (.acceptChannel 4) }

def evSigned : Event := { source := .signer, message := .ctl (.signed psbtSigned) }

def stMut : St :=
  { channel := { ch0 with data := 1 }, identity := .channel 7, trace := [.chanMut] }

theorem Step.map_some_ok {α : Type} (x : Step α) (r : Option α) (st' : St) :
    x.map some = .ok r st' ↔ ∃ a, r = some a ∧ x = .ok a st' := by
  cases x <;> simp [Step.map]
  aesop

theorem Step.map_some_err {α : Type} (x : Step α) (er : Error) (st' : St) :
    x.map some = .err er st' ↔ x = .err er st' := by
  cases x <;> simp [Step.map]

theorem Step.map_some_panic {α : Type} (x : Step α) (st' : St) :
    x.map some = .panic st' ↔ x = .panic st' := by
  cases x <;> simp [Step.map]

theorem complete_proposed_ok (env : Env) (e : Event) (st : St)
    (s' : ChannelPropose) (st' : St)
    (h : complete_proposed env e st = .ok s' st') :
    ∃ ac ch', e.message = .ln (.acceptChannel ac) ∧
      env.update_from_peer st.channel (.acceptChannel ac) = .ok ch' ∧
      s' = .Accepted ∧
      st' = { channel := ch', identity := st.identity,
              trace := st.trace ++
                [.chanMut, .ctl .lnpBroker (.constructFunding
                  { script_pubkey := ch'.scriptPubkey
                    feerate_per_kw := none
                    amount := ch'.fundingAmount })] } := by
  unfold complete_proposed at h
  split at h
  next ac heq =>
    split at h
    next ce hup => exact absurd h (by simp)
    next ch' hup =>
      dsimp only at h
      split at h
      next er hsend => exact absurd h (by simp)
      next st2 hsend =>
        rw [sendCtl] at hsend
        split at hsend
        next hok =>
          injection hsend with h2
          subst h2
          injection h with h1 h2
          exact ⟨ac, ch', heq, hup, h1.symm, by rw [← h2]; simp⟩
        next hok => exact absurd hsend (by simp)
  next wrong hne => exact absurd h (by simp)

theorem complete_accepted_ok (env : Env) (e : Event) (st : St)
    (s' : ChannelPropose) (st' : St)
    (h : complete_accepted env e st = .ok s' st') :
    ∃ psbt ch' refund, e.message = .ctl (.fundingConstructed psbt) ∧
      env.refund_tx st.channel psbt true = .ok (ch', refund) ∧
      s' = .Signing ∧
      st' = { channel := ch', identity := st.identity,
              trace := st.trace ++ [.chanMut, .ctl .signer (.sign refund)] } := by
  unfold complete_accepted at h
  split at h
  next psbt heq =>
    split at h
    next ce hre => exact absurd h (by simp)
    next ch' refund hre =>
      dsimp only at h
      split at h
      next er hsend => exact absurd h (by simp)
      next st2 hsend =>
        rw [sendCtl] at hsend
        split at hsend
        next hok =>
          injection hsend with h2
          subst h2
          injection h with h1 h2
          exact ⟨psbt, ch', refund, heq, hre, h1.symm, by rw [← h2]; simp⟩
        next hok => exact absurd hsend (by simp)
  next wrong hne => exact absurd h (by simp)

theorem complete_funding_ok (env : Env) (e : Event) (st : St)
    (s' : ChannelPropose) (st' : St)
    (h : complete_funding env e st = .ok s' st') :
    ∃ fs ch', e.message = .ln (.fundingSigned fs) ∧
      env.update_from_peer st.channel (.fundingSigned fs) = .ok ch' ∧
      s' = .Signed ∧
      st' = { channel := ch', identity := st.identity,
              trace := st.trace ++ [.chanMut, .ctl .lnpBroker .publishFunding] } := by
  unfold complete_funding at h
  split at h
  next fs heq =>
    split at h
    next ce hup => exact absurd h (by simp)
    next ch' hup =>
      dsimp only at h
      split at h
      next er hsend => exact absurd h (by simp)
      next st2 hsend =>
        rw [sendCtl] at hsend
        split at hsend
        next hok =>
          injection hsend with h2
          subst h2
          injection h with h1 h2
          exact ⟨fs, ch', heq, hup, h1.symm, by rw [← h2]; simp⟩
        next hok => exact absurd hsend (by simp)
  next wrong hne => exact absurd h (by simp)

theorem complete_signed_ok (env : Env) (e : Event) (st : St)
    (s' : ChannelPropose) (st' : St)
    (h : complete_signed env e st = .ok s' st') :
    e.message = .ctl .fundingPublished ∧ s' = .Funded ∧
      st' = { st with
              trace := st.trace ++ [.ctl .chain (.track st.channel.fundingTxid)] } := by
  unfold complete_signed at h
  split at h
  next heq =>
    dsimp only at h
    split at h
    next er hsend => exact absurd h (by simp)
    next st2 hsend =>
      rw [sendCtl] at hsend
      split at hsend
      next hok =>
        injection hsend with h2
        subst h2
        injection h with h1 h2
        exact ⟨heq, h1.symm, h2.symm⟩
      next hok => exact absurd hsend (by simp)
  next wrong hne => exact absurd h (by simp)

theorem complete_signing_ok (env : Env) (e : Event) (st : St)
    (s' : ChannelPropose) (st' : St)
    (h : complete_signing env e st = .ok s' st') :
    ∃ psbt inp sb sig tid,
      e.message = .ctl (.signed psbt) ∧
      psbt.inputs.get? 0 = some inp ∧
      inp.sigs.lookup st.channel.fundingPubkey = some sb ∧
      sb ≠ [] ∧
      env.fromDer (sb.take (sb.length - 1)) = .ok sig ∧
      st.channel.tempId = some tid ∧
      env.set_identity_ok
        (.channel (chanIdWith st.channel.fundingTxid st.channel.fundingOutput)) = true ∧
      s' = .Funding ∧
      st' = { channel := st.channel,
              identity :=
                .channel (chanIdWith st.channel.fundingTxid st.channel.fundingOutput),
              trace := st.trace ++
                [.idSwap
                   (.channel (chanIdWith st.channel.fundingTxid st.channel.fundingOutput)),
                 .ctl .lnpBroker .hello,
                 .p2p (.fundingCreated
                   { temporary_channel_id := tid
                     funding_txid := st.channel.fundingTxid
                     funding_output_index := st.channel.fundingOutput
                     signature := sig })] } := by
  unfold complete_signing at h
  split at h
  next psbt heq =>
    split at h
    next hget => exact absurd h (by simp)
    next inp hget =>
      dsimp only at h
      split at h
      next hlook => exact absurd h (by simp)
      next sb hlook =>
        split at h
        next hnil => exact absurd h (by simp)
        next hnil =>
          split at h
          next pe hder => exact absurd h (by simp)
          next sig hder =>
            split at h
            next htid => exact absurd h (by simp)
            next tid htid =>
              split at h
              next hid =>
                split at h
                next er hsend => exact absurd h (by simp)
                next st2 hsend =>
                  rw [sendCtl] at hsend
                  split at hsend
                  next hok1 =>
                    injection hsend with h2
                    subst h2
                    split at h
                    next er hsend2 => exact absurd h (by simp)
                    next st3 hsend2 =>
                      rw [sendP2p] at hsend2
                      split at hsend2
                      next hok2 =>
                        injection hsend2 with h3
                        subst h3
                        injection h with h1 h2
                        refine ⟨psbt, inp, sb, sig, tid, heq, hget, hlook, hnil, hder,
                          htid, hid, h1.symm, ?_⟩
                        rw [← h2]
                        simp
                      next hok2 => exact absurd hsend2 (by simp)
                  next hok1 => exact absurd hsend (by simp)
              next hid => exact absurd h (by simp)
  next wrong hne => exact absurd h (by simp)

theorem complete_funded_specModel_ok (env : Env) (e : Event) (st : St)
    (s' : ChannelPropose) (st' : St)
    (h : complete_funded_specModel env e st = .ok s' st') :
    ∃ d, e.message = .ctl (.fundingMined d) ∧ s' = .Locked ∧
      st' = { st with trace := st.trace ++
        [.p2p (.channelReady
          (chanIdWith st.channel.fundingTxid st.channel.fundingOutput))] } := by
  unfold complete_funded_specModel at h
  split at h
  next d heq =>
    split at h
    next er hsend => exact absurd h (by simp)
    next st2 hsend =>
      rw [sendP2p] at hsend
      split at hsend
      next hok =>
        injection hsend with h2
        subst h2
        injection h with h1 h2
        exact ⟨d, heq, h1.symm, h2.symm⟩
      next hok => exact absurd hsend (by simp)
  next wrong hne => exact absurd h (by simp)

theorem complete_locked_specModel_ok (env : Env) (e : Event) (st : St)
    (u : Unit) (st' : St)
    (h : complete_locked_specModel env e st = .ok u st') :
    ∃ cr, e.message = .ln (.channelReady cr) ∧
      st' = { st with trace := st.trace ++ [.ctl .lnpBroker .activate] } := by
  unfold complete_locked_specModel at h
  split at h
  next cr heq =>
    split at h
    next er hsend => exact absurd h (by simp)
    next st2 hsend =>
      rw [sendCtl] at hsend
      split at hsend
      next hok =>
        injection hsend with h2
        subst h2
        injection h with h1 h2
        exact ⟨cr, heq, h2.symm⟩
      next hok => exact absurd hsend (by simp)
  next wrong hne => exact absurd h (by simp)

theorem initiate_ok (env : Env) (req : OpenChannelWith) (st : St)
    (s' : ChannelPropose) (st' : St)
    (h : ChannelPropose.initiate env req st = .ok s' st') :
    ∃ ch' oc,
      env.compose_open_channel st.channel req.funding_sat req.push_msat
        req.policy req.common_params req.local_params req.local_keys = .ok (ch', oc) ∧
      s' = .Proposed ∧
      st' = { channel := ch', identity := st.identity,
              trace := st.trace ++ [.chanMut, .p2p (.openChannel oc)] } := by
  unfold ChannelPropose.initiate at h
  split at h
  next ce hcomp => exact absurd h (by simp)
  next ch' oc hcomp =>
    dsimp only at h
    split at h
    next er hsend => exact absurd h (by simp)
    next st2 hsend =>
      rw [sendP2p] at hsend
      split at hsend
      next hok =>
        injection hsend with h2
        subst h2
        injection h with h1 h2
        exact ⟨ch', oc, hcomp, h1.symm, by rw [← h2]; simp⟩
      next hok => exact absurd hsend (by simp)

theorem complete_proposed_err_unexp (env : Env) (e : Event) (st : St)
    (er : Error) (st' : St)
    (h : complete_proposed env e st = .err er st') (hu : er.isUnexpected = true) :
    st' = st ∧ er = .unexpectedMessage e.message .Proposed e.source := by
  unfold complete_proposed at h
  split at h
  next ac heq =>
    split at h
    next ce hup =>
      injection h with h1 h2
      simp [← h1, Error.isUnexpected] at hu
    next ch' hup =>
      dsimp only at h
      split at h
      next er2 hsend =>
        injection h with h1 h2
        rw [sendCtl] at hsend
        split at hsend
        next => exact absurd hsend (by simp)
        next =>
          injection hsend with h3
          simp [← h1, ← h3, Error.isUnexpected] at hu
      next st2 hsend => exact absurd h (by simp)
  next wrong hne =>
    injection h with h1 h2
    exact ⟨h2.symm, h1.symm⟩

theorem complete_accepted_err_unexp (env : Env) (e : Event) (st : St)
    (er : Error) (st' : St)
    (h : complete_accepted env e st = .err er st') (hu : er.isUnexpected = true) :
    st' = st ∧ er = .unexpectedMessage e.message .Accepted e.source := by
  unfold complete_accepted at h
  split at h
  next psbt heq =>
    split at h
    next ce hre =>
      injection h with h1 h2
      simp [← h1, Error.isUnexpected] at hu
    next ch' refund hre =>
      dsimp only at h
      split at h
      next er2 hsend =>
        injection h with h1 h2
        rw [sendCtl] at hsend
        split at hsend
        next => exact absurd hsend (by simp)
        next =>
          injection hsend with h3
          simp [← h1, ← h3, Error.isUnexpected] at hu
      next st2 hsend => exact absurd h (by simp)
  next wrong hne =>
    injection h with h1 h2
    exact ⟨h2.symm, h1.symm⟩

theorem complete_funding_err_unexp (env : Env) (e : Event) (st : St)
    (er : Error) (st' : St)
    (h : complete_funding env e st = .err er st') (hu : er.isUnexpected = true) :
    st' = st ∧ er = .unexpectedMessage e.message .Funding e.source := by
  unfold complete_funding at h
  split at h
  next fs heq =>
    split at h
    next ce hup =>
      injection h with h1 h2
      simp [← h1, Error.isUnexpected] at hu
    next ch' hup =>
      dsimp only at h
      split at h
      next er2 hsend =>
        injection h with h1 h2
        rw [sendCtl] at hsend
        split at hsend
        next => exact absurd hsend (by simp)
        next =>
          injection hsend with h3
          simp [← h1, ← h3, Error.isUnexpected] at hu
      next st2 hsend => exact absurd h (by simp)
  next wrong hne =>
    injection h with h1 h2
    exact ⟨h2.symm, h1.symm⟩

theorem complete_signed_err_unexp (env : Env) (e : Event) (st : St)
    (er : Error) (st' : St)
    (h : complete_signed env e st = .err er st') (hu : er.isUnexpected = true) :
    st' = st ∧ er = .unexpectedMessage e.message .Signed e.source := by
  unfold complete_signed at h
  split at h
  next heq =>
    dsimp only at h
    split at h
    next er2 hsend =>
      injection h with h1 h2
      rw [sendCtl] at hsend
      split at hsend
      next => exact absurd hsend (by simp)
      next =>
        injection hsend with h3
        simp [← h1, ← h3, Error.isUnexpected] at hu
    next st2 hsend => exact absurd h (by simp)
  next wrong hne =>
    injection h with h1 h2
    exact ⟨h2.symm, h1.symm⟩

theorem complete_signing_err_unexp (env : Env) (e : Event) (st : St)
    (er : Error) (st' : St)
    (h : complete_signing env e st = .err er st') (hu : er.isUnexpected = true) :
    st' = st ∧ er = .unexpectedMessage e.message .Signing e.source := by
  unfold complete_signing at h
  split at h
  next psbt heq =>
    split at h
    next hget => exact absurd h (by simp)
    next inp hget =>
      dsimp only at h
      split at h
      next hlook =>
        injection h with h1 h2
        simp [← h1, Error.isUnexpected] at hu
      next sb hlook =>
        split at h
        next hnil => exact absurd h (by simp)
        next hnil =>
          split at h
          next pe hder =>
            injection h with h1 h2
            simp [← h1, Error.isUnexpected] at hu
          next sig hder =>
            split at h
            next htid => exact absurd h (by simp)
            next tid htid =>
              split at h
              next hid =>
                split at h
                next er2 hsend =>
                  injection h with h1 h2
                  rw [sendCtl] at hsend
                  split at hsend
                  next => exact absurd hsend (by simp)
                  next =>
                    injection hsend with h3
                    simp [← h1, ← h3, Error.isUnexpected] at hu
                next st2 hsend =>
                  split at h
                  next er2 hsend2 =>
                    injection h with h1 h2
                    rw [sendP2p] at hsend2
                    split at hsend2
                    next => exact absurd hsend2 (by simp)
                    next =>
                      injection hsend2 with h3
                      simp [← h1, ← h3, Error.isUnexpected] at hu
                  next st3 hsend2 => exact absurd h (by simp)
              next hid => exact absurd h (by simp)
  next wrong hne =>
    injection h with h1 h2
    exact ⟨h2.symm, h1.symm⟩

theorem complete_signing_no_input (env : Env) (e : Event) (st : St) (psbt : Psbt)
    (hm : e.message = .ctl (.signed psbt)) (hi : psbt.inputs.get? 0 = none) :
    complete_signing env e st = .panic st := by
  rw [List.get?_eq_getElem?] at hi
  simp [complete_signing, hm, hi]

theorem complete_signing_unsigned (env : Env) (e : Event) (st : St)
    (psbt : Psbt) (inp : PsbtInput)
    (hm : e.message = .ctl (.signed psbt)) (hi : psbt.inputs.get? 0 = some inp)
    (hl : inp.sigs.lookup st.channel.fundingPubkey = none) :
    complete_signing env e st = .err (.fundingPsbtUnsigned st.channel.fundingPubkey) st := by
  rw [List.get?_eq_getElem?] at hi
  simp [complete_signing, hm, hi, hl]

theorem complete_signing_empty_sig (env : Env) (e : Event) (st : St)
    (psbt : Psbt) (inp : PsbtInput)
    (hm : e.message = .ctl (.signed psbt)) (hi : psbt.inputs.get? 0 = some inp)
    (hl : inp.sigs.lookup st.channel.fundingPubkey = some []) :
    complete_signing env e st = .panic st := by
  rw [List.get?_eq_getElem?] at hi
  simp [complete_signing, hm, hi, hl]

theorem complete_signing_bad_der (env : Env) (e : Event) (st : St)
    (psbt : Psbt) (inp : PsbtInput) (sb : List Nat) (pe : Nat)
    (hm : e.message = .ctl (.signed psbt)) (hi : psbt.inputs.get? 0 = some inp)
    (hl : inp.sigs.lookup st.channel.fundingPubkey = some sb) (hnil : sb ≠ [])
    (hd : env.fromDer (sb.take (sb.length - 1)) = .error pe) :
    complete_signing env e st = .err (.invalidSig pe) st := by
  rw [List.get?_eq_getElem?] at hi
  simp [complete_signing, hm, hi, hl, hnil, hd]

theorem complete_signing_swap_fail (env : Env) (e : Event) (st : St)
    (psbt : Psbt) (inp : PsbtInput) (sb : List Nat) (sig tid : Nat)
    (hm : e.message = .ctl (.signed psbt)) (hi : psbt.inputs.get? 0 = some inp)
    (hl : inp.sigs.lookup st.channel.fundingPubkey = some sb) (hnil : sb ≠ [])
    (hd : env.fromDer (sb.take (sb.length - 1)) = .ok sig)
    (htid : st.channel.tempId = some tid)
    (hswap : env.set_identity_ok
      (.channel (chanIdWith st.channel.fundingTxid st.channel.fundingOutput)) = false) :
    complete_signing env e st = .panic st := by
  rw [List.get?_eq_getElem?] at hi
  simp [complete_signing, hm, hi, hl, hnil, hd, htid, hswap]

theorem run_preserve
    (nx : Env → ChannelPropose → Event → St → Step (Option ChannelPropose))
    (env : Env) (P : RunState → Prop)
    (hstep : ∀ r e, P r → P (stepRun nx env r e)) :
    ∀ (es : List Event) (r : RunState), P r → P (run nx env r es) := by
  intro es
  induction es with
  | nil => intro r h; exact h
  | cons e es ih => intro r h; exact ih _ (hstep r e h)

theorem swaps_append (tr delta : List Effect) :
    swaps (tr ++ delta) = swaps tr ++ swaps delta := by
  simp [swaps, List.filterMap_append]

theorem fundingCreatedMsgs_append (tr delta : List Effect) :
    fundingCreatedMsgs (tr ++ delta) =
      fundingCreatedMsgs tr ++ fundingCreatedMsgs delta := by
  simp [fundingCreatedMsgs, List.filterMap_append]

theorem p2pKinds_append (tr delta : List Effect) :
    p2pKinds (tr ++ delta) = p2pKinds tr ++ p2pKinds delta := by
  simp [p2pKinds, p2pMsgs, List.filterMap_append]

theorem idInv_step (env : Env) (st0 : St) :
    ∀ (r : RunState) (e : Event), IdInv st0 r → IdInv st0 (stepRun next env r e) := by
  intro r e hI
  cases r with
  | going s st =>
    simp only [stepRun]
    split
    next s' st' hnx =>
      cases s with
      | Proposed =>
        rw [show next env .Proposed e st = (complete_proposed env e st).map some from rfl,
          Step.map_some_ok] at hnx
        obtain ⟨a, ha, hc⟩ := hnx
        obtain ⟨ac, ch', hm, hup, hs, hst⟩ := complete_proposed_ok env e st a st' hc
        injection ha with ha'
        subst hs
        subst ha'
        subst hst
        refine ⟨fun _ => ?_, fun hfalse => by simp [preStage] at hfalse⟩
        obtain ⟨hid, hsw, hfc⟩ := hI.1 rfl
        refine ⟨hid, ?_, ?_⟩
        · rw [swaps_append, hsw]
          simp [swaps]
        · rw [fundingCreatedMsgs_append, hfc]
          simp [fundingCreatedMsgs]
      | Accepted =>
        rw [show next env .Accepted e st = (complete_accepted env e st).map some from rfl,
          Step.map_some_ok] at hnx
        obtain ⟨a, ha, hc⟩ := hnx
        obtain ⟨psbt, ch', refund, hm, hre, hs, hst⟩ := complete_accepted_ok env e st a st' hc
        injection ha with ha'
        subst hs
        subst ha'
        subst hst
        refine ⟨fun _ => ?_, fun hfalse => by simp [preStage] at hfalse⟩
        obtain ⟨hid, hsw, hfc⟩ := hI.1 rfl
        refine ⟨hid, ?_, ?_⟩
        · rw [swaps_append, hsw]
          simp [swaps]
        · rw [fundingCreatedMsgs_append, hfc]
          simp [fundingCreatedMsgs]
      | Signing =>
        rw [show next env .Signing e st = (complete_signing env e st).map some from rfl,
          Step.map_some_ok] at hnx
        obtain ⟨a, ha, hc⟩ := hnx
        obtain ⟨psbt, inp, sb, sig, tid, hm, hi, hl, hnil, hd, htid, hid, hs, hst⟩ :=
          complete_signing_ok env e st a st' hc
        injection ha with ha'
        subst hs
        subst ha'
        subst hst
        refine ⟨fun htrue => by simp [preStage] at htrue, fun _ => ?_⟩
        obtain ⟨hidold, hsw, hfc⟩ := hI.1 rfl
        refine ⟨{ temporary_channel_id := tid
                  funding_txid := st.channel.fundingTxid
                  funding_output_index := st.channel.fundingOutput
                  signature := sig }, rfl, ?_, ?_⟩
        · rw [swaps_append, hsw]
          simp [swaps]
        · rw [fundingCreatedMsgs_append, hfc]
          simp [fundingCreatedMsgs]
      | Funding =>
        rw [show next env .Funding e st = (complete_funding env e st).map some from rfl,
          Step.map_some_ok] at hnx
        obtain ⟨a, ha, hc⟩ := hnx
        obtain ⟨fs, ch', hm, hup, hs, hst⟩ := complete_funding_ok env e st a st' hc
        injection ha with ha'
        subst hs
        subst ha'
        subst hst
        refine ⟨fun htrue => by simp [preStage] at htrue, fun _ => ?_⟩
        obtain ⟨fcm, hidp, hsw, hfc⟩ := hI.2 rfl
        refine ⟨fcm, hidp, ?_, ?_⟩
        · rw [swaps_append, hsw]
          simp [swaps]
        · rw [fundingCreatedMsgs_append, hfc]
          simp [fundingCreatedMsgs]
      | Signed =>
        rw [show next env .Signed e st = (complete_signed env e st).map some from rfl,
          Step.map_some_ok] at hnx
        obtain ⟨a, ha, hc⟩ := hnx
        obtain ⟨hm, hs, hst⟩ := complete_signed_ok env e st a st' hc
        injection ha with ha'
        subst hs
        subst ha'
        subst hst
        refine ⟨fun htrue => by simp [preStage] at htrue, fun _ => ?_⟩
        obtain ⟨fcm, hidp, hsw, hfc⟩ := hI.2 rfl
        refine ⟨fcm, hidp, ?_, ?_⟩
        · rw [swaps_append, hsw]
          simp [swaps]
        · rw [fundingCreatedMsgs_append, hfc]
          simp [fundingCreatedMsgs]
      | Funded => exact absurd hnx (by simp [next, complete_funded, Step.map])
      | Locked => exact absurd hnx (by simp [next, complete_locked, Step.map])
    next st' hnx => trivial
    next er st' hnx => trivial
    next st' hnx => trivial
  | finished st => exact hI
  | failed er st => exact hI
  | crashed st => exact hI

theorem traceInv_step (env : Env) :
    ∀ (r : RunState) (e : Event), TraceInv r → TraceInv (stepRun nextSpec env r e) := by
  intro r e hI
  cases r with
  | going s st =>
    simp only [stepRun]
    split
    next s' st' hnx =>
      cases s with
      | Proposed =>
        rw [show nextSpec env .Proposed e st = (complete_proposed env e st).map some from rfl,
          Step.map_some_ok] at hnx
        obtain ⟨a, ha, hc⟩ := hnx
        obtain ⟨ac, ch', hm, hup, hs, hst⟩ := complete_proposed_ok env e st a st' hc
        injection ha with ha'
        subst hs
        subst ha'
        subst hst
        show p2pKinds _ = _
        rw [p2pKinds_append, hI]
        simp [p2pKinds, p2pMsgs, p2pSoFar]
      | Accepted =>
        rw [show nextSpec env .Accepted e st = (complete_accepted env e st).map some from rfl,
          Step.map_some_ok] at hnx
        obtain ⟨a, ha, hc⟩ := hnx
        obtain ⟨psbt, ch', refund, hm, hre, hs, hst⟩ := complete_accepted_ok env e st a st' hc
        injection ha with ha'
        subst hs
        subst ha'
        subst hst
        show p2pKinds _ = _
        rw [p2pKinds_append, hI]
        simp [p2pKinds, p2pMsgs, p2pSoFar]
      | Signing =>
        rw [show nextSpec env .Signing e st = (complete_signing env e st).map some from rfl,
          Step.map_some_ok] at hnx
        obtain ⟨a, ha, hc⟩ := hnx
        obtain ⟨psbt, inp, sb, sig, tid, hm, hi, hl, hnil, hd, htid, hid, hs, hst⟩ :=
          complete_signing_ok env e st a st' hc
        injection ha with ha'
        subst hs
        subst ha'
        subst hst
        show p2pKinds _ = _
        rw [p2pKinds_append, hI]
        simp [p2pKinds, p2pMsgs, p2pSoFar, LnMsg.kind]
      | Funding =>
        rw [show nextSpec env .Funding e st = (complete_funding env e st).map some from rfl,
          Step.map_some_ok] at hnx
        obtain ⟨a, ha, hc⟩ := hnx
        obtain ⟨fs, ch', hm, hup, hs, hst⟩ := complete_funding_ok env e st a st' hc
        injection ha with ha'
        subst hs
        subst ha'
        subst hst
        show p2pKinds _ = _
        rw [p2pKinds_append, hI]
        simp [p2pKinds, p2pMsgs, p2pSoFar]
      | Signed =>
        rw [show nextSpec env .Signed e st = (complete_signed env e st).map some from rfl,
          Step.map_some_ok] at hnx
        obtain ⟨a, ha, hc⟩ := hnx
        obtain ⟨hm, hs, hst⟩ := complete_signed_ok env e st a st' hc
        injection ha with ha'
        subst hs
        subst ha'
        subst hst
        show p2pKinds _ = _
        rw [p2pKinds_append, hI]
        simp [p2pKinds, p2pMsgs, p2pSoFar]
      | Funded =>
        rw [show nextSpec env .Funded e st =
            (complete_funded_specModel env e st).map some from rfl,
          Step.map_some_ok] at hnx
        obtain ⟨a, ha, hc⟩ := hnx
        obtain ⟨d, hm, hs, hst⟩ := complete_funded_specModel_ok env e st a st' hc
        injection ha with ha'
        subst hs
        subst ha'
        subst hst
        show p2pKinds _ = _
        rw [p2pKinds_append, hI]
        simp [p2pKinds, p2pMsgs, p2pSoFar, LnMsg.kind]
      | Locked =>
        exfalso
        rw [show nextSpec env .Locked e st =
            (match complete_locked_specModel env e st with
             | .ok _ st' => .ok none st'
             | .err er st' => .err er st'
             | .panic st' => .panic st') from rfl] at hnx
        revert hnx
        split <;> simp
    next st' hnx =>
      cases s with
      | Locked =>
        rw [show nextSpec env .Locked e st =
            (match complete_locked_specModel env e st with
             | .ok _ st' => .ok none st'
             | .err er st' => .err er st'
             | .panic st' => .panic st') from rfl] at hnx
        revert hnx
        split
        next u st2 hcl =>
          intro hnx
          injection hnx with _ h2
          subst h2
          obtain ⟨cr, hm, hst⟩ := complete_locked_specModel_ok env e st u st2 hcl
          subst hst
          show p2pKinds _ = _
          rw [p2pKinds_append, hI]
          simp [p2pKinds, p2pMsgs, p2pSoFar]
        next er st2 hcl => intro hnx; exact absurd hnx (by simp)
        next st2 hcl => intro hnx; exact absurd hnx (by simp)
      | Proposed =>
        exact absurd hnx (by rw [show nextSpec env .Proposed e st =
          (complete_proposed env e st).map some from rfl, Step.map_some_ok]; simp)
      | Accepted =>
        exact absurd hnx (by rw [show nextSpec env .Accepted e st =
          (complete_accepted env e st).map some from rfl, Step.map_some_ok]; simp)
      | Signing =>
        exact absurd hnx (by rw [show nextSpec env .Signing e st =
          (complete_signing env e st).map some from rfl, Step.map_some_ok]; simp)
      | Funding =>
        exact absurd hnx (by rw [show nextSpec env .Funding e st =
          (complete_funding env e st).map some from rfl, Step.map_some_ok]; simp)
      | Signed =>
        exact absurd hnx (by rw [show nextSpec env .Signed e st =
          (complete_signed env e st).map some from rfl, Step.map_some_ok]; simp)
      | Funded =>
        exact absurd hnx (by rw [show nextSpec env .Funded e st =
          (complete_funded_specModel env e st).map some from rfl, Step.map_some_ok]; simp)
    next er st' hnx => trivial
    next st' hnx => trivial
  | finished st => exact hI
  | failed er st => exact hI
  | crashed st => exact hI

/-- Claim C1, counterexample: at stage `Proposed`, with a peer
`accept_channel` event, a collaborator environment whose `update_from_peer`
succeeds (mutating the channel) and whose control-bus send fails, `next`
returns an error while the channel has been mutated relative to its value
on entry — refuting "if `next()` errs, the channel is unchanged". -/
theorem c1_counterexample :
    next ctlFailEnv .Proposed evAccept st0 = .err (.busSend 0) stMut ∧
      stMut.channel ≠ st0.channel := by
  exact ⟨rfl, by decide⟩

/-- Claim C1 (amended): if `next` returns an error then no next stage is
produced, and when the error is an `UnexpectedMessage` the whole runtime
state (channel, identity, trace) is unchanged from entry and the error
carries the message of the event, the lifecycle of the stage and the
source of the event;
errors raised after a channel mutation (for example a bus-send failure
following `update_from_peer`) leave that mutation in place. -/
theorem c1_error_state (env : Env) (s : ChannelPropose) (e : Event) (st : St)
    (er : Error) (st' : St)
    (h : next env s e st = .err er st') (hu : er.isUnexpected = true) :
    st' = st ∧ er = .unexpectedMessage e.message s.lifecycle e.source := by
  cases s with
  | Proposed =>
    rw [show next env .Proposed e st = (complete_proposed env e st).map some from rfl,
      Step.map_some_err] at h
    exact complete_proposed_err_unexp env e st er st' h hu
  | Accepted =>
    rw [show next env .Accepted e st = (complete_accepted env e st).map some from rfl,
      Step.map_some_err] at h
    exact complete_accepted_err_unexp env e st er st' h hu
  | Signing =>
    rw [show next env .Signing e st = (complete_signing env e st).map some from rfl,
      Step.map_some_err] at h
    exact complete_signing_err_unexp env e st er st' h hu
  | Funding =>
    rw [show next env .Funding e st = (complete_funding env e st).map some from rfl,
      Step.map_some_err] at h
    exact complete_funding_err_unexp env e st er st' h hu
  | Signed =>
    rw [show next env .Signed e st = (complete_signed env e st).map some from rfl,
      Step.map_some_err] at h
    exact complete_signed_err_unexp env e st er st' h hu
  | Funded => exact absurd h (by simp [next, complete_funded, Step.map])
  | Locked => exact absurd h (by simp [next, complete_locked, Step.map])

/-- Witness for C1: concrete unexpected event at stage `Proposed`. -/
theorem c1_witness :
    st0 = st0 ∧
      Error.unexpectedMessage (.ctl .hello) .Proposed (.peer 0) =
        .unexpectedMessage (Event.message { source := .peer 0, message := .ctl .hello })
          ChannelPropose.Proposed.lifecycle
          (Event.source { source := .peer 0, message := .ctl .hello }) :=
  c1_error_state okEnv .Proposed { source := .peer 0, message := .ctl .hello } st0
    (.unexpectedMessage (.ctl .hello) .Proposed (.peer 0)) st0 rfl rfl

/-- Claim C2, counterexample: at stage `Funded` (whose transition is
`todo!()` in the source) an unexpected event does not produce an
`UnexpectedMessage` error — `next` panics instead, and the outcome is not
an error at all. -/
theorem c2_counterexample :
    next okEnv .Funded evAccept st0 = .panic st0 ∧
      (next okEnv .Funded evAccept st0).isErr = false := ⟨rfl, rfl⟩

/-- Claim C2 (amended): for the five implemented stages (`Proposed`,
`Accepted`, `Signing`, `Funding`, `Signed`), delivering any event that is
not the single expected event class of the stage yields
`UnexpectedMessage(message, stage, source)` with the state unchanged; at
`Funded` and `Locked` the source panics (`todo!()`) on every event
instead. -/
theorem c2_unexpected_message (env : Env) (s : ChannelPropose) (e : Event) (st : St)
    (hF : s ≠ .Funded) (hL : s ≠ .Locked)
    (hexp : expectedMsg s e.message = false) :
    next env s e st = .err (.unexpectedMessage e.message s.lifecycle e.source) st := by
  rcases e with ⟨src, msg⟩
  cases s
  case Funded => exact absurd rfl hF
  case Locked => exact absurd rfl hL
  all_goals
    rcases msg with m | m <;> cases m <;>
      simp_all [next, complete_proposed, complete_accepted, complete_signing,
        complete_funding, complete_signed, expectedMsg, Step.map,
        ChannelPropose.lifecycle]

/-- Witness for C2: a `funding_signed` peer message delivered at stage
`Proposed` produces the matching `UnexpectedMessage` error. -/
theorem c2_witness :
    next okEnv .Proposed { source := .peer 2, message := .ln (.fundingSigned 9) } st0 =
      .err (.unexpectedMessage
        (Event.message { source := .peer 2, message := .ln (.fundingSigned 9) })
        ChannelPropose.Proposed.lifecycle
        (Event.source { source := .peer 2, message := .ln (.fundingSigned 9) })) st0 :=
  c2_unexpected_message okEnv .Proposed
    { source := .peer 2, message := .ln (.fundingSigned 9) } st0
    (by decide) (by decide) rfl

/-- Claim C9: `next` yields `Ok(None)` only from stage `Locked`, and from
every other stage a successful `next` yields `Ok(Some(stage))`, so the FSM
cannot terminate from a non-`Locked` stage. -/
theorem c9_terminal_only_locked :
    (∀ (env : Env) (s : ChannelPropose) (e : Event) (st : St) (st' : St),
      next env s e st = .ok none st' → s = .Locked) ∧
    (∀ (env : Env) (s : ChannelPropose) (e : Event) (st : St)
        (v : Option ChannelPropose) (st' : St),
      s ≠ .Locked → next env s e st = .ok v st' → ∃ s', v = some s') := by
  constructor
  · intro env s e st st' h
    cases s with
    | Proposed =>
      rw [show next env .Proposed e st = (complete_proposed env e st).map some from rfl,
        Step.map_some_ok] at h
      simp at h
    | Accepted =>
      rw [show next env .Accepted e st = (complete_accepted env e st).map some from rfl,
        Step.map_some_ok] at h
      simp at h
    | Signing =>
      rw [show next env .Signing e st = (complete_signing env e st).map some from rfl,
        Step.map_some_ok] at h
      simp at h
    | Funding =>
      rw [show next env .Funding e st = (complete_funding env e st).map some from rfl,
        Step.map_some_ok] at h
      simp at h
    | Signed =>
      rw [show next env .Signed e st = (complete_signed env e st).map some from rfl,
        Step.map_some_ok] at h
      simp at h
    | Funded => exact absurd h (by simp [next, complete_funded, Step.map])
    | Locked => rfl
  · intro env s e st v st' hL h
    cases s with
    | Proposed =>
      rw [show next env .Proposed e st = (complete_proposed env e st).map some from rfl,
        Step.map_some_ok] at h
      obtain ⟨a, ha, _⟩ := h
      exact ⟨a, ha⟩
    | Accepted =>
      rw [show next env .Accepted e st = (complete_accepted env e st).map some from rfl,
        Step.map_some_ok] at h
      obtain ⟨a, ha, _⟩ := h
      exact ⟨a, ha⟩
    | Signing =>
      rw [show next env .Signing e st = (complete_signing env e st).map some from rfl,
        Step.map_some_ok] at h
      obtain ⟨a, ha, _⟩ := h
      exact ⟨a, ha⟩
    | Funding =>
      rw [show next env .Funding e st = (complete_funding env e st).map some from rfl,
        Step.map_some_ok] at h
      obtain ⟨a, ha, _⟩ := h
      exact ⟨a, ha⟩
    | Signed =>
      rw [show next env .Signed e st = (complete_signed env e st).map some from rfl,
        Step.map_some_ok] at h
      obtain ⟨a, ha, _⟩ := h
      exact ⟨a, ha⟩
    | Funded => exact absurd h (by simp [next, complete_funded, Step.map])
    | Locked => exact absurd rfl hL

/-- Witness for C9: a successful transition out of `Proposed` yields a
`some` stage. -/
theorem c9_witness : ∃ s', (some ChannelPropose.Accepted) = some s' :=
  c9_terminal_only_locked.2 okEnv .Proposed evAccept st0 (some .Accepted) demo1
    (by decide) rfl

/-- Claim C7: `ChannelPropose::with` composes `open_channel` from the six
request fields and, when the channel object accepts the parameters and the
peer-wire send succeeds, sends exactly that message and returns stage
`Proposed`; it returns an error (and no stage) exactly when
`compose_open_channel` rejects the parameters or the peer-wire send
fails. -/
theorem c7_initiate_contract (env : Env) (req : OpenChannelWith) (st : St) :
    (∀ ce, env.compose_open_channel st.channel req.funding_sat req.push_msat
        req.policy req.common_params req.local_params req.local_keys = .error ce →
      ChannelPropose.initiate env req st = .err (.channelError ce) st) ∧
    (∀ ch' oc, env.compose_open_channel st.channel req.funding_sat req.push_msat
        req.policy req.common_params req.local_params req.local_keys = .ok (ch', oc) →
      (env.send_p2p_ok (.openChannel oc) = true →
        ChannelPropose.initiate env req st =
          .ok .Proposed { channel := ch', identity := st.identity,
                          trace := st.trace ++ [.chanMut, .p2p (.openChannel oc)] }) ∧
      (env.send_p2p_ok (.openChannel oc) = false →
        ChannelPropose.initiate env req st =
          .err (.busSend 0) { channel := ch', identity := st.identity,
                              trace := st.trace ++ [.chanMut] })) := by
  constructor
  · intro ce hcomp
    simp [ChannelPropose.initiate, hcomp]
  · intro ch' oc hcomp
    constructor
    · intro hsend
      simp [ChannelPropose.initiate, hcomp, sendP2p, hsend]
    · intro hsend
      simp [ChannelPropose.initiate, hcomp, sendP2p, hsend]

/-- Witness for C7: the demo environment accepts the request and the send
succeeds, so `initiate` returns `Proposed` having emitted `open_channel`. -/
theorem c7_witness :
    ChannelPropose.initiate okEnv req0 st0 =
      .ok .Proposed { channel := ch0, identity := .channel 7,
                      trace := St.trace st0 ++ [.chanMut, .p2p (.openChannel 5)] } :=
  ((c7_initiate_contract okEnv req0 st0).2 ch0 5 rfl).1 rfl

/-- Claim C8: every successful transition (of `next` and of `initiate`)
appends to the effect trace a phase-ordered fragment: channel mutations
first, then the identity swap if any, then control-bus emissions, then
peer-wire emissions. -/
theorem c8_effect_order :
    (∀ (env : Env) (s : ChannelPropose) (e : Event) (st : St)
        (r : Option ChannelPropose) (st' : St),
      next env s e st = .ok r st' →
        ∃ delta, st'.trace = st.trace ++ delta ∧ Phased delta) ∧
    (∀ (env : Env) (req : OpenChannelWith) (st : St) (s' : ChannelPropose) (st' : St),
      ChannelPropose.initiate env req st = .ok s' st' →
        ∃ delta, st'.trace = st.trace ++ delta ∧ Phased delta) := by
  constructor
  · intro env s e st r st' h
    cases s with
    | Proposed =>
      rw [show next env .Proposed e st = (complete_proposed env e st).map some from rfl,
        Step.map_some_ok] at h
      obtain ⟨a, _, hc⟩ := h
      obtain ⟨ac, ch', hm, hup, hs, hst⟩ := complete_proposed_ok env e st a st' hc
      subst hst
      exact ⟨_, rfl, by simp [Phased, Effect.phase]⟩
    | Accepted =>
      rw [show next env .Accepted e st = (complete_accepted env e st).map some from rfl,
        Step.map_some_ok] at h
      obtain ⟨a, _, hc⟩ := h
      obtain ⟨psbt, ch', refund, hm, hre, hs, hst⟩ := complete_accepted_ok env e st a st' hc
      subst hst
      exact ⟨_, rfl, by simp [Phased, Effect.phase]⟩
    | Signing =>
      rw [show next env .Signing e st = (complete_signing env e st).map some from rfl,
        Step.map_some_ok] at h
      obtain ⟨a, _, hc⟩ := h
      obtain ⟨psbt, inp, sb, sig, tid, hm, hi, hl, hnil, hd, htid, hid, hs, hst⟩ :=
        complete_signing_ok env e st a st' hc
      subst hst
      exact ⟨_, rfl, by simp [Phased, Effect.phase]⟩
    | Funding =>
      rw [show next env .Funding e st = (complete_funding env e st).map some from rfl,
        Step.map_some_ok] at h
      obtain ⟨a, _, hc⟩ := h
      obtain ⟨fs, ch', hm, hup, hs, hst⟩ := complete_funding_ok env e st a st' hc
      subst hst
      exact ⟨_, rfl, by simp [Phased, Effect.phase]⟩
    | Signed =>
      rw [show next env .Signed e st = (complete_signed env e st).map some from rfl,
        Step.map_some_ok] at h
      obtain ⟨a, _, hc⟩ := h
      obtain ⟨hm, hs, hst⟩ := complete_signed_ok env e st a st' hc
      subst hst
      exact ⟨_, rfl, by simp [Phased, Effect.phase]⟩
    | Funded => exact absurd h (by simp [next, complete_funded, Step.map])
    | Locked => exact absurd h (by simp [next, complete_locked, Step.map])
  · intro env req st s' st' h
    obtain ⟨ch', oc, hcomp, hs, hst⟩ := initiate_ok env req st s' st' h
    subst hst
    exact ⟨_, rfl, by simp [Phased, Effect.phase]⟩

/-- Witness for C8: the concrete `Proposed` transition of the demo run
appends a phase-ordered fragment. -/
theorem c8_witness :
    ∃ delta, St.trace demo1 = St.trace st0 ++ delta ∧ Phased delta :=
  c8_effect_order.1 okEnv .Proposed evAccept st0 (some .Accepted) demo1 rfl

/-- Claim C4: at stage `Signing` on a `signed(psbt)` event whose PSBT has a
first input, `next` returns `FundingPsbtUnsigned(local funding pubkey)`
when the partial-signature map has no entry for that key; otherwise it
strips the trailing sighash byte and parses the DER prefix, returning
`InvalidSignature` on parse failure; and on overall success the parsed
signature is exactly the one carried in the emitted `funding_created`. -/
theorem c4_signature_extraction :
    (∀ (env : Env) (e : Event) (st : St) (psbt : Psbt) (inp : PsbtInput),
      e.message = .ctl (.signed psbt) → psbt.inputs.get? 0 = some inp →
      inp.sigs.lookup st.channel.fundingPubkey = none →
      next env .Signing e st =
        .err (.fundingPsbtUnsigned st.channel.fundingPubkey) st) ∧
    (∀ (env : Env) (e : Event) (st : St) (psbt : Psbt) (inp : PsbtInput)
        (sb : List Nat) (pe : Nat),
      e.message = .ctl (.signed psbt) → psbt.inputs.get? 0 = some inp →
      inp.sigs.lookup st.channel.fundingPubkey = some sb → sb ≠ [] →
      env.fromDer (sb.take (sb.length - 1)) = .error pe →
      next env .Signing e st = .err (.invalidSig pe) st) ∧
    (∀ (env : Env) (e : Event) (st : St) (psbt : Psbt) (inp : PsbtInput)
        (sb : List Nat) (sig : Nat) (r : Option ChannelPropose) (st' : St),
      e.message = .ctl (.signed psbt) → psbt.inputs.get? 0 = some inp →
      inp.sigs.lookup st.channel.fundingPubkey = some sb →
      env.fromDer (sb.take (sb.length - 1)) = .ok sig →
      next env .Signing e st = .ok r st' →
      ∃ tid newId, st'.trace = st.trace ++
        [.idSwap newId, .ctl .lnpBroker .hello,
         .p2p (.fundingCreated
           { temporary_channel_id := tid
             funding_txid := st.channel.fundingTxid
             funding_output_index := st.channel.fundingOutput
             signature := sig })]) := by
  refine ⟨?_, ?_, ?_⟩
  · intro env e st psbt inp hm hi hl
    rw [show next env .Signing e st = (complete_signing env e st).map some from rfl,
      complete_signing_unsigned env e st psbt inp hm hi hl]
    rfl
  · intro env e st psbt inp sb pe hm hi hl hnil hd
    rw [show next env .Signing e st = (complete_signing env e st).map some from rfl,
      complete_signing_bad_der env e st psbt inp sb pe hm hi hl hnil hd]
    rfl
  · intro env e st psbt inp sb sig r st' hm hi hl hd h
    rw [show next env .Signing e st = (complete_signing env e st).map some from rfl,
      Step.map_some_ok] at h
    obtain ⟨a, _, hc⟩ := h
    obtain ⟨psbt', inp', sb', sig', tid, hm', hi', hl', hnil', hd', htid, hid, hs, hst⟩ :=
      complete_signing_ok env e st a st' hc
    rw [hm] at hm'
    injection hm' with hm2
    injection hm2 with hm3
    subst hm3
    rw [hi] at hi'
    injection hi' with hi2
    subst hi2
    rw [hl] at hl'
    injection hl' with hl2
    subst hl2
    rw [hd] at hd'
    injection hd' with hd2
    subst hd2
    subst hst
    exact ⟨tid, _, rfl⟩

/-- Witness for C4: a PSBT whose single input carries no entry for the
local funding pubkey produces `FundingPsbtUnsigned`. -/
theorem c4_witness :
    next okEnv .Signing { source := .signer, message := .ctl (.signed psbt0) } st0 =
      .err (.fundingPsbtUnsigned (Channel.fundingPubkey (St.channel st0))) st0 :=
  c4_signature_extraction.1 okEnv
    { source := .signer, message := .ctl (.signed psbt0) } st0 psbt0
    { sigs := [] } rfl rfl rfl

/-- Claim C5, counterexample: with a bus that refuses the identity
re-registration, a valid `signed` event at stage `Signing` makes `next`
panic (`expect("unrecoverable ZMQ failure")`); no error value — in
particular no `IdentitySwapFailed`, which does not exist in the error
type of the code — is returned. -/
theorem c5_counterexample :
    next swapFailEnv .Signing evSigned st0 = .panic st0 ∧
      (next swapFailEnv .Signing evSigned st0).isErr = false := ⟨rfl, rfl⟩

/-- Claim C5 (amended): on the Signing to Funding transition the identity
swap to the permanent outpoint-derived id is performed, and the `hello`
re-registration message is sent, strictly before `funding_created` is
emitted (the successful trace fragment is exactly
`[idSwap, hello, funding_created]`); and when the bus refuses the re-keying
the source panics via `expect` — returning no error — and the state is
left exactly as on entry, so no `funding_created` is emitted. -/
theorem c5_identity_swap (env : Env) (e : Event) (st : St) :
    (∀ (r : Option ChannelPropose) (st' : St),
      next env .Signing e st = .ok r st' →
      ∃ fcm, st'.trace = st.trace ++
        [.idSwap (.channel (chanIdWith fcm.funding_txid fcm.funding_output_index)),
         .ctl .lnpBroker .hello, .p2p (.fundingCreated fcm)] ∧
        fcm.funding_txid = st.channel.fundingTxid ∧
        fcm.funding_output_index = st.channel.fundingOutput) ∧
    (∀ (psbt : Psbt) (inp : PsbtInput) (sb : List Nat) (sig tid : Nat),
      e.message = .ctl (.signed psbt) → psbt.inputs.get? 0 = some inp →
      inp.sigs.lookup st.channel.fundingPubkey = some sb → sb ≠ [] →
      env.fromDer (sb.take (sb.length - 1)) = .ok sig →
      st.channel.tempId = some tid →
      env.set_identity_ok
        (.channel (chanIdWith st.channel.fundingTxid st.channel.fundingOutput)) = false →
      next env .Signing e st = .panic st) := by
  constructor
  · intro r st' h
    rw [show next env .Signing e st = (complete_signing env e st).map some from rfl,
      Step.map_some_ok] at h
    obtain ⟨a, _, hc⟩ := h
    obtain ⟨psbt, inp, sb, sig, tid, hm, hi, hl, hnil, hd, htid, hid, hs, hst⟩ :=
      complete_signing_ok env e st a st' hc
    subst hst
    exact ⟨{ temporary_channel_id := tid
             funding_txid := st.channel.fundingTxid
             funding_output_index := st.channel.fundingOutput
             signature := sig }, rfl, rfl, rfl⟩
  · intro psbt inp sb sig tid hm hi hl hnil hd htid hswap
    rw [show next env .Signing e st = (complete_signing env e st).map some from rfl,
      complete_signing_swap_fail env e st psbt inp sb sig tid hm hi hl hnil hd htid hswap]
    rfl

/-- Witness for C5: the demo `signed` event succeeds and its trace
fragment places the identity swap and `hello` before `funding_created`. -/
theorem c5_witness :
    ∃ fcm, St.trace demoSigningSt = St.trace st0 ++
      [.idSwap (.channel (chanIdWith fcm.funding_txid fcm.funding_output_index)),
       .ctl .lnpBroker .hello, .p2p (.fundingCreated fcm)] ∧
      fcm.funding_txid = Channel.fundingTxid (St.channel st0) ∧
      fcm.funding_output_index = Channel.fundingOutput (St.channel st0) :=
  (c5_identity_swap okEnv evSigned st0).1 (some .Funding) demoSigningSt rfl

/-- Claim C10: at stage `Signing` on a `signed(psbt)` event, evaluation
panics whenever the PSBT has no inputs (the `expect` on the first input)
or the partial-signature entry for the local funding pubkey is the empty
byte string (the `len() - 1` slice); hence a non-panicking evaluation
requires at least one input and a non-empty entry whenever one is
present. -/
theorem c10_signing_panic_preconditions :
    (∀ (env : Env) (e : Event) (st : St) (psbt : Psbt),
      e.message = .ctl (.signed psbt) → psbt.inputs = [] →
      next env .Signing e st = .panic st) ∧
    (∀ (env : Env) (e : Event) (st : St) (psbt : Psbt) (inp : PsbtInput),
      e.message = .ctl (.signed psbt) → psbt.inputs.get? 0 = some inp →
      inp.sigs.lookup st.channel.fundingPubkey = some [] →
      next env .Signing e st = .panic st) ∧
    (∀ (env : Env) (e : Event) (st : St) (psbt : Psbt),
      e.message = .ctl (.signed psbt) →
      (next env .Signing e st).isPanic = false → psbt.inputs ≠ []) ∧
    (∀ (env : Env) (e : Event) (st : St) (psbt : Psbt) (inp : PsbtInput)
        (sb : List Nat),
      e.message = .ctl (.signed psbt) → psbt.inputs.get? 0 = some inp →
      inp.sigs.lookup st.channel.fundingPubkey = some sb →
      (next env .Signing e st).isPanic = false → sb ≠ []) := by
  refine ⟨?_, ?_, ?_, ?_⟩
  · intro env e st psbt hm hinp
    rw [show next env .Signing e st = (complete_signing env e st).map some from rfl,
      complete_signing_no_input env e st psbt hm (by rw [hinp]; rfl)]
    rfl
  · intro env e st psbt inp hm hi hl
    rw [show next env .Signing e st = (complete_signing env e st).map some from rfl,
      complete_signing_empty_sig env e st psbt inp hm hi hl]
    rfl
  · intro env e st psbt hm hp heq
    rw [show next env .Signing e st = (complete_signing env e st).map some from rfl,
      complete_signing_no_input env e st psbt hm (by rw [heq]; rfl)] at hp
    simp [Step.map, Step.isPanic] at hp
  · intro env e st psbt inp sb hm hi hl hp heq
    subst heq
    rw [show next env .Signing e st = (complete_signing env e st).map some from rfl,
      complete_signing_empty_sig env e st psbt inp hm hi hl] at hp
    simp [Step.map, Step.isPanic] at hp

/-- Witness for C10: the demo signed PSBT is accepted without panicking,
so it indeed has at least one input. -/
theorem c10_witness : Psbt.inputs psbtSigned ≠ [] :=
  c10_signing_panic_preconditions.2.2.1 okEnv evSigned st0 psbtSigned rfl rfl

/-- Claim C3 (with the `Funded`/`Locked` transitions, `todo!()` in the
source, closed by their spec-modelled completions in `nextSpec`): every
successful end-to-end run — `initiate` followed by events driving the FSM
to the terminal `Ok(None)` — emits over the peer wire exactly
`open_channel`, `funding_created`, `channel_ready`, in that order and with
no other peer-wire message. -/
theorem c3_peer_wire_sequence (env : Env) (req : OpenChannelWith)
    (st0' st1 : St) (es : List Event) (stF : St)
    (htr : st0'.trace = [])
    (hinit : ChannelPropose.initiate env req st0' = .ok .Proposed st1)
    (hrun : run nextSpec env (.going .Proposed st1) es = .finished stF) :
    p2pKinds stF.trace = [.kOpenChannel, .kFundingCreated, .kChannelReady] := by
  obtain ⟨ch', oc, hcomp, _, hst1⟩ := initiate_ok env req st0' .Proposed st1 hinit
  have h0 : TraceInv (.going .Proposed st1) := by
    show p2pKinds st1.trace = p2pSoFar .Proposed
    subst hst1
    show p2pKinds (st0'.trace ++ _) = _
    rw [htr]
    simp [p2pKinds, p2pMsgs, p2pSoFar, LnMsg.kind]
  have hres := run_preserve nextSpec env TraceInv (traceInv_step env) es _ h0
  rw [hrun] at hres
  exact hres

/-- Witness for C3: the concrete seven-event happy path terminates and its
peer-wire kinds are exactly the three handshake messages. -/
theorem c3_witness :
    p2pKinds (St.trace demoFinal) =
      [.kOpenChannel, .kFundingCreated, .kChannelReady] :=
  c3_peer_wire_sequence okEnv req0 st0 st1c demoEvents demoFinal rfl rfl rfl

/-- Claim C6: in every live run from `Proposed`, at every observable
point before the Signing to Funding transition the ESB identity equals the
initial (temporary) registration, no identity swap is recorded and no
`funding_created` has been emitted; at every observable point after it,
exactly one identity swap has been recorded and exactly one
`funding_created` emitted, and the identity equals the permanent id
`chanIdWith` of the funding outpoint `(funding_txid,
funding_output_index)` carried inside that very `funding_created` — the
id installed by the swap, inside whose emission the temporary id is last
referenced — so the temporary id is retired exactly once and no later
event changes the identity back. -/
theorem c6_channel_id_lifecycle (env : Env) (st0' : St) (es : List Event)
    (s : ChannelPropose) (st' : St)
    (h : run next env (.going .Proposed st0') es = .going s st') :
    (preStage s = true →
      st'.identity = st0'.identity ∧ swaps st'.trace = swaps st0'.trace ∧
      fundingCreatedMsgs st'.trace = fundingCreatedMsgs st0'.trace) ∧
    (preStage s = false →
      ∃ fcm,
        st'.identity =
          .channel (chanIdWith fcm.funding_txid fcm.funding_output_index) ∧
        swaps st'.trace = swaps st0'.trace ++
          [.channel (chanIdWith fcm.funding_txid fcm.funding_output_index)] ∧
        fundingCreatedMsgs st'.trace = fundingCreatedMsgs st0'.trace ++ [fcm]) := by
  have h0 : IdInv st0' (.going .Proposed st0') :=
    ⟨fun _ => ⟨rfl, rfl, rfl⟩, fun hc => by simp [preStage] at hc⟩
  have hres := run_preserve next env (IdInv st0') (idInv_step env st0') es _ h0
  rw [h] at hres
  exact hres

/-- Witness for C6: after the three-event demo run reaching `Funding`, the
identity is the permanent id derived from the outpoint carried in the one
emitted `funding_created`, and exactly one swap is recorded. -/
theorem c6_witness :
    (preStage .Funding = true →
      St.identity demo3 = St.identity st0 ∧
      swaps (St.trace demo3) = swaps (St.trace st0) ∧
      fundingCreatedMsgs (St.trace demo3) = fundingCreatedMsgs (St.trace st0)) ∧
    (preStage .Funding = false →
      ∃ fcm,
        St.identity demo3 =
          .channel (chanIdWith fcm.funding_txid fcm.funding_output_index) ∧
        swaps (St.trace demo3) = swaps (St.trace st0) ++
          [.channel (chanIdWith fcm.funding_txid fcm.funding_output_index)] ∧
        fundingCreatedMsgs (St.trace demo3) =
          fundingCreatedMsgs (St.trace st0) ++ [fcm]) :=
  c6_channel_id_lifecycle okEnv st0 (demoEvents.take 3) .Funding demo3 rfl
